import Mathlib

/-!
Verification of the DeepLX translation load balancer (`main.py`).

The development shallowly embeds the core components of the source:
the per-URL health state (`URLStatus.update_status`, `URLStatus.check_url`),
the pool manager (`URLRotator.__init__`, `URLRotator.get_next_url`,
`URLRotator.update_urls`), the rate limiter (`RateLimiter.acquire`),
the dispatcher (`translate_single`) and the SSE stream generator
(`sse_translate`).  Python floats are modelled as rationals, Python dicts
as association lists, wall-clock time and randomness as explicit oracle
parameters, and HTTP traffic as explicit outcome values supplied by an
environment.
-/

namespace DeepLX

/-- Association-list lookup, mirroring Python `dict.get(key)`. -/
def alookup {β : Type} : List (String × β) → String → Option β
  | [], _ => none
  | (k2, v) :: rest, k => if k2 = k then some v else alookup rest k

/-- Association-list update, mirroring Python `dict[key] = value`: the new
binding shadows any earlier one, so every `alookup` sees the replacement. -/
def ainsert {β : Type} (l : List (String × β)) (k : String) (v : β) :
    List (String × β) :=
  (k, v) :: l

/-- Python `str.strip()`: drop leading and trailing whitespace.  (Python
strips a slightly larger Unicode whitespace set; the ASCII set suffices for
every string the source strips.) -/
def pyStrip (s : String) : String :=
  String.mk (((s.data.dropWhile Char.isWhitespace).reverse.dropWhile
    Char.isWhitespace).reverse)

/-- Python slicing `s[:n]`. -/
def pyTake (s : String) (n : Nat) : String :=
  String.mk (s.data.take n)

/-- One entry of `URLStatus.status_dict` (`main.py`, `update_status`).
Every key the source writes is a field; `latency` / `response_length` /
`last_success` / `success_rate` are nullable exactly as in the source. -/
structure HealthRecord where
  available : Bool
  latency : Option ℚ
  response_length : Option Nat
  last_check : ℚ
  last_success : Option ℚ
  consecutive_failures : Nat
  total_checks : Nat
  success_rate : Option ℚ
  deriving Repr, DecidableEq

/-- The `URLStatus.status_dict` map. -/
abbrev StatusDict := List (String × HealthRecord)

/-- `URLStatus.update_status(url, status, latency, response_length)` with the
wall-clock `time.time()` passed explicitly as `now`. -/
def update_status (d : StatusDict) (url : String) (status : Bool)
    (latency : Option ℚ) (response_length : Option Nat) (now : ℚ) : StatusDict :=
  let old := alookup d url
  let cf : Nat :=
    if status then 0
    else (match old with | some r => r.consecutive_failures | none => 0) + 1
  let tc : Nat := (match old with | some r => r.total_checks | none => 0) + 1
  let entry : HealthRecord :=
    { available := status
      latency := latency
      response_length := response_length
      last_check := now
      last_success := if status then some now else old.bind (fun r => r.last_success)
      consecutive_failures := cf
      total_checks := tc
      success_rate :=
        if 0 < tc then some (max 0 (((tc : ℚ) - (cf : ℚ)) / (tc : ℚ))) else none }
  ainsert d url entry

/-- `status.get('consecutive_failures', 0)` as read by the pool manager. -/
def consec_failures (d : StatusDict) (url : String) : Nat :=
  match alookup d url with
  | some r => r.consecutive_failures
  | none => 0

/-- Status dictionaries producible by the source: the dictionary starts empty
and every mutation goes through `update_status`. -/
inductive StatusReachable : StatusDict → Prop
  | nil : StatusReachable []
  | step (d : StatusDict) (url : String) (status : Bool) (latency : Option ℚ)
      (response_length : Option Nat) (now : ℚ) :
      StatusReachable d →
      StatusReachable (update_status d url status latency response_length now)

/-- A JSON value as far as the source inspects one: the `data` field of an
upstream response body. -/
inductive JVal where
  | jnull
  | jbool (b : Bool)
  | jnum (n : Int)
  | jstr (s : String)
  deriving Repr, DecidableEq

/-- Python truthiness of a JSON value, as tested by
`if 'data' in result and result.get("data"):`. -/
def JVal.truthy : JVal → Bool
  | .jnull => false
  | .jbool b => b
  | .jnum n => n ≠ 0
  | .jstr s => s ≠ ""

/-- Python `str(...)` of a JSON value, as computed by
`response_text = str(result.get("data"))` in `check_url`. -/
def JVal.pyStr : JVal → String
  | .jnull => "None"
  | .jbool b => if b then "True" else "False"
  | .jnum n => toString n
  | .jstr s => s

/-- The parse of a probe response body (`await response.json()`): either a
JSON decode failure or a parsed object whose `data` field may be absent. -/
inductive ProbeBody where
  | invalidJson
  | parsed (data : Option JVal)
  deriving Repr, DecidableEq

/-- The outcome of the single POST a probe performs, as distinguished by the
exception handlers and status check in `URLStatus.check_url`. -/
inductive ProbeOutcome where
  | timeout
  | connError (msg : String)
  | httpResp (stat : Nat) (bodyText : String) (body : ProbeBody)
  deriving Repr, DecidableEq

/-- The dictionary `check_url` returns (its `timestamp` key is the wall clock
and carries no logic, so it is not modelled). -/
structure ProbeResult where
  available : Bool
  latency : Option ℚ
  error : Option String
  response_length : Option Nat
  deriving Repr, DecidableEq

/-- The classification performed by `URLStatus.check_url` on one probe
response.  `testText` is `test_data["text"]`; `latency` is the measured
wall-clock latency (the source rounds it to 3 digits for display only).
The source writes the missing-data reason with quotes around the word data;
the quotes are omitted here. -/
def check_url_classify (testText : String) (o : ProbeOutcome) (latency : ℚ) :
    ProbeResult :=
  match o with
  | .timeout => ⟨false, none, some "Connection timeout", none⟩
  | .connError msg => ⟨false, none, some ("Connection error: " ++ pyTake msg 100), none⟩
  | .httpResp stat bodyText body =>
      if stat = 200 then
        match body with
        | .invalidJson => ⟨false, none, some "Invalid JSON response", none⟩
        | .parsed data =>
            match data with
            | some v =>
                if v.truthy then
                  let rt := v.pyStr
                  if 0 < rt.length ∧ pyStrip rt ≠ "" ∧ rt ≠ testText then
                    ⟨true, some latency, none, some rt.length⟩
                  else
                    ⟨false, none, some "Empty or invalid translation response", none⟩
                else
                  ⟨false, none, some "Invalid response format - missing data field", none⟩
            | none =>
                ⟨false, none, some "Invalid response format - missing data field", none⟩
      else
        ⟨false, none,
          some ("HTTP " ++ toString stat ++
            (if bodyText.length < 200 then ": " ++ bodyText else "")), none⟩

/-- `check_url` combined with the `update_status` call it performs on the
classified outcome (success records latency and response length, failure
records neither). -/
def check_url_update (d : StatusDict) (url testText : String) (o : ProbeOutcome)
    (latency now : ℚ) : StatusDict × ProbeResult :=
  let res := check_url_classify testText o latency
  (update_status d url res.available res.latency res.response_length now, res)

/-- Modelled from the spec sentence of claim C6 (refinement comparison only):
available iff HTTP 200, body parses as JSON, a non-null `data` field exists,
`str(data)` is non-empty and non-whitespace, and `str(data)` differs from the
probe text. -/
def spec_probe_available (testText : String) (o : ProbeOutcome) : Bool :=
  match o with
  | .httpResp 200 _ (.parsed (some v)) =>
      v ≠ .jnull && v.pyStr ≠ "" && pyStrip v.pyStr ≠ "" && v.pyStr ≠ testText
  | _ => false

/-- The state of `URLRotator` (`main.py`): the active URL list, the shared
`URLStatus.status_dict`, and the per-URL tracking dictionaries.  The unused
`current_index` field of the source is not modelled. -/
structure URLRotator where
  urls : List String
  status : StatusDict
  request_counts : List (String × Nat)
  last_used : List (String × ℚ)
  url_weights : List (String × ℚ)
  deriving Repr, DecidableEq

/-- The cleaning both `__init__` and `update_urls` perform:
`[url.strip() for url in urls if url.strip()]`.  Trims and drops entries that
are empty after trimming; it does not deduplicate. -/
def clean_urls (urls : List String) : List String :=
  (urls.map pyStrip).filter (fun u => u ≠ "")

/-- `URLRotator.__init__`: trim, drop empties, reject an empty result. -/
def rotator_init (urls : List String) : Except String URLRotator :=
  let cleaned := clean_urls urls
  if cleaned = [] then .error "No valid URLs provided"
  else
    .ok { urls := cleaned
          status := []
          request_counts := cleaned.map (fun u => (u, 0))
          last_used := cleaned.map (fun u => (u, 0))
          url_weights := cleaned.map (fun u => (u, 1)) }

/-- The body of the scoring loop in `get_next_url` for one URL: `none` when
the URL is skipped (more than 5 consecutive failures, or marked unavailable),
otherwise the URL paired with its score.  A record whose `available` is true
always stores a latency and a success rate in the source, so the `getD`
defaults beyond the missing-record case are never exercised. -/
def score_entry (r : URLRotator) (now : ℚ) (url : String) : Option (String × ℚ) :=
  let st := alookup r.status url
  if consec_failures r.status url > 5 then none
  else
    let avail := match st with | some rec0 => rec0.available | none => true
    if avail then
      let base_latency : ℚ := match st with
        | some rec0 => rec0.latency.getD 1
        | none => 1
      let request_load : ℚ := ((alookup r.request_counts url).getD 0 : ℚ) * (5 / 1000)
      let recent_usage : ℚ :=
        max 0 (10 - (now - (alookup r.last_used url).getD 0)) * (5 / 100)
      let success_rate : ℚ := match st with
        | some rec0 => rec0.success_rate.getD 1
        | none => 1
      let weight : ℚ := (alookup r.url_weights url).getD 1
      some (url, (base_latency + request_load + recent_usage) / (success_rate * weight))
    else none

/-- The `scored_urls` list built by `get_next_url`. -/
def scored_urls (r : URLRotator) (now : ℚ) : List (String × ℚ) :=
  r.urls.filterMap (score_entry r now)

/-- Stable minimum-score selection: `scored_urls.sort(key=lambda x: x[1])`
followed by taking the head.  Python sort is stable, so among equal scores
the earliest entry wins, which is what keeping the current candidate on
non-strict comparisons computes. -/
def pick_min_go : String → ℚ → List (String × ℚ) → String
  | u, _, [] => u
  | u, s, (u2, s2) :: rest => if s2 < s then pick_min_go u2 s2 rest else pick_min_go u s rest

/-- `pick_min` of the scored list; `none` exactly on the empty list. -/
def pick_min : List (String × ℚ) → Option String
  | [] => none
  | (u, s) :: rest => some (pick_min_go u s rest)

/-- The tracking update `get_next_url` performs on the selected URL:
increment its request count and stamp its last-used time. -/
def bump (r : URLRotator) (u : String) (now : ℚ) : URLRotator :=
  { r with
    request_counts := ainsert r.request_counts u ((alookup r.request_counts u).getD 0 + 1)
    last_used := ainsert r.last_used u now }

/-- `URLRotator.get_next_url` with the wall clock and the `random.choice`
draw passed as explicit oracles (`randIdx` is reduced modulo the pool size).
The 503 `HTTPException` of the empty-pool branch is the `error` case. -/
def get_next_url (r : URLRotator) (now : ℚ) (randIdx : Nat) :
    Except Nat (String × URLRotator) :=
  match pick_min (scored_urls r now) with
  | some u => .ok (u, bump r u now)
  | none =>
      match r.urls with
      | [] => .error 503
      | u0 :: rest =>
          let u := (u0 :: rest).get
            ⟨randIdx % (u0 :: rest).length, Nat.mod_lt _ (Nat.succ_pos _)⟩
          .ok (u, bump r u now)

/-- `URLRotator.update_urls`: trim, drop empties, no-op when nothing is left,
otherwise install the cleaned list and rebuild the tracking dictionaries,
carrying over existing statistics and default-initializing new URLs. -/
def update_urls (r : URLRotator) (new_urls : List String) : URLRotator :=
  let cleaned := clean_urls new_urls
  if cleaned = [] then r
  else
    { r with
      urls := cleaned
      request_counts := cleaned.map (fun u => (u, (alookup r.request_counts u).getD 0))
      last_used := cleaned.map (fun u => (u, (alookup r.last_used u).getD 0))
      url_weights := cleaned.map (fun u => (u, (alookup r.url_weights u).getD 1)) }

/-- Rotator states producible by the source: constructed by `__init__`, then
mutated only by `update_urls`, by the tracking update inside `get_next_url`,
and by health-state updates on the shared `URLStatus`. -/
inductive ReachableRotator : URLRotator → Prop
  | init (urls : List String) (r : URLRotator) :
      rotator_init urls = .ok r → ReachableRotator r
  | update (r : URLRotator) (new_urls : List String) :
      ReachableRotator r → ReachableRotator (update_urls r new_urls)
  | step (r r2 : URLRotator) (now : ℚ) (idx : Nat) (u : String) :
      ReachableRotator r → get_next_url r now idx = .ok (u, r2) → ReachableRotator r2
  | health (r : URLRotator) (url : String) (status : Bool) (latency : Option ℚ)
      (response_length : Option Nat) (now : ℚ) :
      ReachableRotator r →
      ReachableRotator
        { r with status := update_status r.status url status latency response_length now }

/-- The state of `RateLimiter`: the global window and the per-client windows
(`defaultdict(list)` read through `alookup … |>.getD []`). -/
structure RateLimiter where
  max_requests : Nat
  time_window : ℚ
  requests : List ℚ
  client_requests : List (String × List ℚ)
  deriving Repr, DecidableEq

/-- The three ways `RateLimiter.acquire` can end: admission, the global
429 `Global rate limit exceeded`, or the per-client
429 `Client rate limit exceeded`. -/
inductive RLDecision where
  | accepted
  | globalLimited
  | clientLimited
  deriving Repr, DecidableEq

/-- Drop window entries with `now - t >= time_window`, keeping the rest in
order (the purge comprehensions in `acquire`). -/
def purge (l : List ℚ) (now window : ℚ) : List ℚ :=
  l.filter (fun t => now - t < window)

/-- The stored window of one client (`self.client_requests[client_ip]`,
empty for an unseen client). -/
def client_window (s : RateLimiter) (ip : String) : List ℚ :=
  (alookup s.client_requests ip).getD []

/-- `RateLimiter.acquire(client_ip)` at wall-clock `now`.  The returned state
reflects the mutations performed before a raise, exactly as in the source:
the global purge always happens; the client purge happens only if the global
check passed and a client key was given; appends happen only on admission. -/
def RateLimiter.acquire (s : RateLimiter) (client_ip : Option String) (now : ℚ) :
    RLDecision × RateLimiter :=
  let reqs := purge s.requests now s.time_window
  if s.max_requests ≤ reqs.length then
    (.globalLimited, { s with requests := reqs })
  else
    match client_ip with
    | some ip =>
        let client_limit := min (s.max_requests / 4) 30
        let cl := purge (client_window s ip) now s.time_window
        if client_limit ≤ cl.length then
          (.clientLimited,
            { s with requests := reqs, client_requests := ainsert s.client_requests ip cl })
        else
          (.accepted,
            { s with requests := reqs ++ [now],
                     client_requests := ainsert s.client_requests ip (cl ++ [now]) })
    | none => (.accepted, { s with requests := reqs ++ [now] })

/-- Modelled from the spec sentence of claim C8 (refinement comparison only):
a request is accepted iff, after purging, fewer than `max_requests` timestamps
remain globally and fewer than `min(max_requests / 4, 30)` — with `/` read as
exact division — remain in the client window. -/
def spec_rl_accepts (s : RateLimiter) (client_ip : Option String) (now : ℚ) : Bool :=
  decide ((purge s.requests now s.time_window).length < s.max_requests) &&
    match client_ip with
    | some ip =>
        decide (((purge (client_window s ip) now s.time_window).length : ℚ) <
          min ((s.max_requests : ℚ) / 4) 30)
    | none => true

/-- `TIMEOUT` (env default 30), the per-attempt dispatch timeout in seconds. -/
def dispatchTimeoutSecs : Nat := 30

/-- The parse of a dispatch response body, carrying the serialized body
(`json.dumps(result)`) used in the `Invalid API response` message. -/
inductive DispatchBody where
  | invalidJson (msg : String)
  | parsed (data : Option JVal) (dump : String)
  deriving Repr, DecidableEq

/-- The outcome of the POST a dispatch attempt performs, as distinguished by
the exception handlers and status check in `translate_single`. -/
inductive TransResult where
  | timeout
  | reqError (msg : String)
  | httpResp (stat : Nat) (bodyText : String) (body : DispatchBody)
  deriving Repr, DecidableEq

/-- What one dispatch attempt produces: a translated text, or the
`last_error` message the source records for the attempt. -/
inductive AttemptOutcome where
  | success (s : String)
  | fail (msg : String)
  deriving Repr, DecidableEq

/-- Message of the `AttributeError` CPython raises when `.strip()` is called
on a truthy non-string `data` value (the quotes of the CPython text are
omitted). -/
def attr_error_text : JVal → String
  | .jnull => "NoneType object has no attribute strip"
  | .jbool _ => "bool object has no attribute strip"
  | .jnum _ => "int object has no attribute strip"
  | .jstr _ => "str object has no attribute strip"

/-- The per-attempt response handling of `translate_single`: HTTP status
check, JSON decode, the truthiness test on `data`, the non-whitespace test on
the translated text, and the `last_error` message of each failing branch. -/
def classify_response : TransResult → AttemptOutcome
  | .timeout => .fail ("Request timeout (" ++ toString dispatchTimeoutSecs ++ "s)")
  | .reqError msg => .fail ("Request error: " ++ pyTake msg 200)
  | .httpResp stat bodyText body =>
      if stat = 200 then
        match body with
        | .invalidJson msg => .fail ("JSON decode error: " ++ msg)
        | .parsed data dump =>
            match data with
            | some v =>
                if v.truthy then
                  match v with
                  | .jstr s =>
                      if pyStrip s ≠ "" then .success s
                      else .fail ("Invalid API response: " ++ pyTake dump 200)
                  | _ => .fail ("Request error: " ++ pyTake (attr_error_text v) 200)
                else .fail ("Invalid API response: " ++ pyTake dump 200)
            | none => .fail ("Invalid API response: " ++ pyTake dump 200)
      else .fail ("HTTP " ++ toString stat ++ ": " ++ pyTake bodyText 200)

/-- The environment of one `translate_single` call: the response and measured
duration of each dispatch attempt (indexed by attempt number), the wall clock
and `random.choice` oracle of each `get_next_url` call (indexed by a call
counter), and the wall clock of each status update (indexed by attempt). -/
structure DispatchEnv where
  resp : Nat → TransResult
  dur : Nat → ℚ
  selTime : Nat → ℚ
  selRand : Nat → Nat
  updTime : Nat → ℚ

/-- The `while url in tried_urls and retry_count < 3` reselection loop of
`translate_single`; after three reselections the duplicate is accepted. -/
def dedup_loop (env : DispatchEnv) (tried : List String) :
    Nat → String → URLRotator → Nat → Except Nat (String × URLRotator × Nat)
  | 0, u, r, cc => .ok (u, r, cc)
  | k + 1, u, r, cc =>
      if u ∈ tried then
        match get_next_url r (env.selTime cc) (env.selRand cc) with
        | .error e => .error e
        | .ok (u2, r2) => dedup_loop env tried k u2 r2 (cc + 1)
      else .ok (u, r, cc)

/-- One URL selection of `translate_single`: `get_next_url` followed by the
duplicate-avoidance loop.  The counter `cc` numbers `get_next_url` calls. -/
def select_url (env : DispatchEnv) (r : URLRotator) (tried : List String) (cc : Nat) :
    Except Nat (String × URLRotator × Nat) :=
  match get_next_url r (env.selTime cc) (env.selRand cc) with
  | .error e => .error e
  | .ok (u, r2) => dedup_loop env tried 3 u r2 (cc + 1)

/-- The retry cap of `translate_single`:
`max_retries = min(len(TRANSLATION_API_URLS), 5)`, replaced by 3 when that
list is empty. -/
def dispatch_max_retries (startup_urls : List String) : Nat :=
  if startup_urls.length = 0 then 3 else min startup_urls.length 5

/-- The retry loop of `translate_single`.  Arguments after `maxR`: remaining
attempts (fuel), current attempt index, `tried_urls`, `last_error`, rotator
state, `get_next_url` call counter.  Returns the result (the translated pair
`(target_lang, text)` or an HTTP error `(code, detail)`), the number of
dispatch attempts performed, and the final rotator state. -/
def attempt_loop (tgt : String) (env : DispatchEnv) (maxR : Nat) :
    Nat → Nat → List String → Option String → URLRotator → Nat →
    (Except (Nat × String) (String × String)) × Nat × URLRotator
  | 0, i, _, lastError, r, _ =>
      (.error (503, "Translation failed after " ++ toString maxR ++
        " attempts. Last error: " ++ lastError.getD "None"), i, r)
  | fuel + 1, i, tried, lastError, r, cc =>
      match select_url env r tried cc with
      | .error code => (.error (code, "No available translation endpoints"), i, r)
      | .ok (url, r1, cc1) =>
          match classify_response (env.resp i) with
          | .success s =>
              (.ok (tgt, s), i + 1,
                { r1 with
                  status := update_status r1.status url true
                    (some (env.dur i)) (some s.length) (env.updTime i) })
          | .fail m =>
              attempt_loop tgt env maxR fuel (i + 1) (url :: tried) (some m)
                { r1 with
                  status := update_status r1.status url false none none
                    (env.updTime i) }
                cc1

/-- `translate_single(text, source_lang, target_lang)`.  `startup_urls` is the
module-level `TRANSLATION_API_URLS` list read for the retry cap (fixed at
startup), `r` is the `url_rotator` state (the list `update_urls` mutates). -/
def translate_single (text source_lang target_lang : String)
    (startup_urls : List String) (r : URLRotator) (env : DispatchEnv) :
    (Except (Nat × String) (String × String)) × Nat × URLRotator :=
  if source_lang = target_lang then (.ok (target_lang, text), 0, r)
  else
    attempt_loop target_lang env (dispatch_max_retries startup_urls)
      (dispatch_max_retries startup_urls) 0 [] none r 0

/-- One `yield` of the streaming generator `sse_translate`.  `chunk` is a
content delta frame, `finish` the `finish_reason:"stop"` frame, `errFrame`
an `{error:{message, type, code}}` frame, and `done` the sentinel line
`data: [DONE]` followed by two newlines.  The JSON rendering of the frames
carries no control flow and is not modelled. -/
inductive SSEFrame where
  | chunk (content : String)
  | finish
  | errFrame (message : String) (etype : String) (code : Nat)
  | done
  deriving Repr, DecidableEq

/-- How the awaited `translate_single` call inside the generator ends: a
translated text, an `HTTPException` (detail, status code), or any other
exception. -/
inductive TranslateOutcome where
  | ok (text : String)
  | httpError (code : Nat) (detail : String)
  | unexpected (msg : String)
  deriving Repr, DecidableEq

/-- Fuel-indexed 100-character slicing (the `range(0, len, 100)` loop);
`fuel = l.length` always suffices since each step consumes at least one
character. -/
def chunk100_go : Nat → List Char → List (List Char)
  | 0, _ => []
  | _, [] => []
  | fuel + 1, c :: cs => ((c :: cs).take 100) :: chunk100_go fuel ((c :: cs).drop 100)

/-- The 100-character chunks of a string, in order. -/
def chunk100 (s : String) : List (List Char) :=
  chunk100_go s.toList.length s.toList

/-- The sequence of frames the generator `sse_translate` yields, by outcome:
content chunks then the finish frame on success, an error frame on either
error path, and in every case the `data: [DONE]` sentinel from the `finally`
block. -/
def sse_translate : TranslateOutcome → List SSEFrame
  | .ok t => ((chunk100 t).map (fun c => SSEFrame.chunk (String.mk c))) ++
      [.finish, .done]
  | .httpError code detail => [.errFrame detail "translation_error" code, .done]
  | .unexpected _ =>
      [.errFrame "Internal server error during translation" "internal_error" 500, .done]

/-- The string the sentinel frame renders to. -/
def sentinel_line : String := "data: [DONE]\n\n"

/-- A concrete reachable status dictionary: one successful probe of `"a"`. -/
def d1c : StatusDict := update_status [] "a" true (some 1) (some 3) 5

/-- A successful update of `"a"` recording latency 2 and length 5. -/
def c5d1 : StatusDict := update_status [] "a" true (some 2) (some 5) 10

/-- The dictionary after a subsequent failing update of `"a"`. -/
def c5d2 : StatusDict := update_status c5d1 "a" false none none 20

/-- The rotator state `URLRotator.__init__` builds from the list `["a"]`. -/
def r1c : URLRotator :=
  { urls := ["a"], status := [], request_counts := [("a", 0)],
    last_used := [("a", 0)], url_weights := [("a", 1)] }

/-- The rotator state `URLRotator.__init__` builds from `["a", "b"]`. -/
def r2ab : URLRotator :=
  { urls := ["a", "b"], status := [],
    request_counts := [("a", 0), ("b", 0)],
    last_used := [("a", 0), ("b", 0)],
    url_weights := [("a", 1), ("b", 1)] }

/-- The rotator after `update_urls` replaced the two-URL startup pool with
the single URL `["d"]` (as the auto-update path of
`check_and_export_urls` does). -/
def rDc : URLRotator := update_urls r2ab ["d"]

/-- A dispatch environment in which every attempt receives HTTP 500. -/
def envFailC : DispatchEnv :=
  { resp := fun _ => .httpResp 500 "boom" (.parsed none "x")
    dur := fun _ => 0
    selTime := fun _ => 0
    selRand := fun _ => 0
    updTime := fun _ => 0 }

/-- A fresh rate limiter with `MAX_REQUESTS_PER_MINUTE = 2`. -/
def rl2c : RateLimiter := ⟨2, 60, [], []⟩

/-- A fresh rate limiter with the default `MAX_REQUESTS_PER_MINUTE = 60`. -/
def rl60c : RateLimiter := ⟨60, 60, [], []⟩

theorem alookup_ainsert_self {β : Type} (l : List (String × β)) (k : String) (v : β) :
    alookup (ainsert l k v) k = some v := by
  simp [ainsert, alookup]

theorem alookup_ainsert_ne {β : Type} (l : List (String × β)) (k k2 : String) (v : β)
    (h : k2 ≠ k) : alookup (ainsert l k v) k2 = alookup l k2 := by
  have h2 : ¬ k = k2 := fun hk => h hk.symm
  simp [ainsert, alookup, h2]

theorem alookup_map_self {β : Type} (f : String → β) (l : List String) (u : String)
    (h : u ∈ l) : alookup (l.map (fun x => (x, f x))) u = some (f u) := by
  induction l with
  | nil => cases h
  | cons a rest ih =>
      by_cases ha : a = u
      · subst ha; simp [alookup]
      · rcases List.mem_cons.mp h with h2 | h2
        · exact absurd h2.symm ha
        · simp [alookup, ha, ih h2]

theorem update_status_lookup_self (d : StatusDict) (url : String) (status : Bool)
    (latency : Option ℚ) (response_length : Option Nat) (now : ℚ) :
    ∃ r, alookup (update_status d url status latency response_length now) url = some r := by
  simp only [update_status]
  exact ⟨_, alookup_ainsert_self _ _ _⟩

/-- C3: for every URL and after every sequence of health-state updates, the
record satisfies `total_checks ≥ consecutive_failures`, and `success_rate`
equals `max(0, (total_checks − consecutive_failures) / total_checks)` and
lies in `[0, 1]`. -/
theorem health_invariant (d : StatusDict) (hd : StatusReachable d) :
    ∀ url r, alookup d url = some r →
      r.consecutive_failures ≤ r.total_checks ∧
      r.success_rate =
        some (max 0 (((r.total_checks : ℚ) - (r.consecutive_failures : ℚ)) /
          (r.total_checks : ℚ))) ∧
      ∀ q, r.success_rate = some q → 0 ≤ q ∧ q ≤ 1 := by
  induction hd with
  | nil => intro url r h; cases h
  | step d u st lat len now _ ih =>
      intro url r h
      simp only [update_status] at h
      by_cases hu : url = u
      · subst hu
        rw [alookup_ainsert_self] at h
        have hle : (match alookup d url with
            | some r0 => r0.consecutive_failures | none => 0) ≤
            (match alookup d url with
            | some r0 => r0.total_checks | none => 0) := by
          cases hh : alookup d url with
          | none => exact Nat.le_refl 0
          | some r0 => exact (ih url r0 hh).1
        obtain rfl := (Option.some.inj h).symm
        refine ⟨?_, ?_, ?_⟩
        · cases st with
          | true => exact Nat.zero_le _
          | false => exact Nat.succ_le_succ hle
        · simp
        · intro q hq
          simp only [if_pos (Nat.succ_pos _), Option.some.injEq] at hq
          subst hq
          constructor
          · exact le_max_left _ _
          · apply max_le (by norm_num)
            rw [div_le_one (by positivity)]
            exact sub_le_self _ (by positivity)
      · rw [alookup_ainsert_ne _ _ _ _ hu] at h
        exact ih url r h

theorem health_invariant_w :
    StatusReachable d1c ∧
    ∃ r, alookup d1c "a" = some r ∧
      r.consecutive_failures ≤ r.total_checks ∧
      r.success_rate =
        some (max 0 (((r.total_checks : ℚ) - (r.consecutive_failures : ℚ)) /
          (r.total_checks : ℚ))) ∧
      ∀ q, r.success_rate = some q → 0 ≤ q ∧ q ≤ 1 := by
  have hr : StatusReachable d1c :=
    StatusReachable.step [] "a" true (some 1) (some 3) 5 StatusReachable.nil
  exact ⟨hr, _, rfl, health_invariant d1c hr "a" _ rfl⟩

/-- C4: a success update resets `consecutive_failures` to 0 and stamps
`last_success = now`; a failure update increments `consecutive_failures` and
leaves `last_success` unchanged; both increment `total_checks` by exactly one
and recompute `success_rate`. -/
theorem update_status_effect (d : StatusDict) (url : String) (status : Bool)
    (latency : Option ℚ) (response_length : Option Nat) (now : ℚ) :
    ∃ r, alookup (update_status d url status latency response_length now) url = some r ∧
      r.consecutive_failures = (if status then 0 else consec_failures d url + 1) ∧
      r.last_success =
        (if status then some now else (alookup d url).bind (fun r0 => r0.last_success)) ∧
      r.total_checks =
        (match alookup d url with | some r0 => r0.total_checks | none => 0) + 1 ∧
      r.success_rate =
        some (max 0 (((r.total_checks : ℚ) - (r.consecutive_failures : ℚ)) /
          (r.total_checks : ℚ))) := by
  simp only [update_status]
  refine ⟨_, alookup_ainsert_self _ _ _, ?_, rfl, rfl, ?_⟩
  · cases hh : alookup d url <;> simp [consec_failures, hh]
  · simp

theorem c5_counterexample :
    (alookup c5d1 "a").map HealthRecord.latency = some (some 2) ∧
    (alookup c5d2 "a").map HealthRecord.latency = some none ∧
    (alookup c5d2 "a").map HealthRecord.response_length = some none := by
  exact ⟨rfl, rfl, rfl⟩

/-- C5 (amended): a failure update does not preserve the latency and response
length of the last successful probe; it overwrites both with null (the values
`translate_single` and `check_url` pass on failure), while recording the
failure in the failure counters. -/
theorem update_status_failure_clears (d : StatusDict) (url : String) (now : ℚ) :
    ∃ r, alookup (update_status d url false none none now) url = some r ∧
      r.latency = none ∧ r.response_length = none ∧ r.available = false ∧
      r.consecutive_failures = consec_failures d url + 1 := by
  simp only [update_status]
  refine ⟨_, alookup_ainsert_self _ _ _, rfl, rfl, rfl, ?_⟩
  cases hh : alookup d url <;> simp [consec_failures, hh]

theorem c6_counterexample :
    spec_probe_available "Hello, world"
      (.httpResp 200 "" (.parsed (some (.jnum 0)))) = true ∧
    (check_url_classify "Hello, world"
      (.httpResp 200 "" (.parsed (some (.jnum 0)))) 1).available = false ∧
    (check_url_classify "Hello, world"
      (.httpResp 200 "" (.parsed (some (.jnum 0)))) 1).error =
      some "Invalid response format - missing data field" := by
  refine ⟨by decide, rfl, rfl⟩

/-- C6 (amended): a probe is classified available iff the response is HTTP
200, the body parses as JSON, the `data` field exists and is truthy by Python
rules (so a non-null but falsy value such as `0`, `false` or `""` is treated
like a missing field), `str(data)` is non-empty and non-whitespace, and
`str(data)` differs from the probe text; an echoed `data` equal to the probe
text yields the reason `Empty or invalid translation response`. -/
theorem check_url_available_iff (testText : String) (o : ProbeOutcome) (latency : ℚ) :
    ((check_url_classify testText o latency).available = true ↔
      ∃ bodyText v, o = .httpResp 200 bodyText (.parsed (some v)) ∧
        v.truthy = true ∧ 0 < v.pyStr.length ∧ pyStrip v.pyStr ≠ "" ∧
        v.pyStr ≠ testText) ∧
    (∀ bodyText v, v.truthy = true → v.pyStr = testText →
      (check_url_classify testText
        (.httpResp 200 bodyText (.parsed (some v))) latency).available = false ∧
      (check_url_classify testText
        (.httpResp 200 bodyText (.parsed (some v))) latency).error =
        some "Empty or invalid translation response") := by
  constructor
  · constructor
    · intro h
      match o with
      | .timeout => simp [check_url_classify] at h
      | .connError m => simp [check_url_classify] at h
      | .httpResp stat bt body =>
          by_cases hs : stat = 200
          · subst hs
            match body with
            | .invalidJson => simp [check_url_classify] at h
            | .parsed none => simp [check_url_classify] at h
            | .parsed (some v) =>
                by_cases htr : v.truthy
                · by_cases hc : 0 < v.pyStr.length ∧ pyStrip v.pyStr ≠ "" ∧
                      v.pyStr ≠ testText
                  · exact ⟨bt, v, rfl, htr, hc.1, hc.2.1, hc.2.2⟩
                  · simp [check_url_classify, htr, hc] at h
                · simp [check_url_classify, htr] at h
          · simp [check_url_classify, hs] at h
    · rintro ⟨bt, v, rfl, htr, h1, h2, h3⟩
      simp [check_url_classify, htr, h1, h2, h3]
  · intro bt v htr he
    have hc : ¬ (0 < v.pyStr.length ∧ pyStrip v.pyStr ≠ "" ∧ v.pyStr ≠ testText) := by
      intro hcon
      exact hcon.2.2 he
    constructor <;> simp [check_url_classify, htr, hc]

theorem check_url_available_iff_w :
    JVal.truthy (.jstr "Hello") = true ∧
    JVal.pyStr (.jstr "Hello") = "Hello" ∧
    (check_url_classify "Hello"
      (.httpResp 200 "" (.parsed (some (.jstr "Hello")))) 1).available = false ∧
    (check_url_classify "Hello"
      (.httpResp 200 "" (.parsed (some (.jstr "Hello")))) 1).error =
      some "Empty or invalid translation response" := by
  have h := (check_url_available_iff "Hello"
    (.httpResp 200 "" (.parsed (some (.jstr "Hello")))) 1).2 "" (.jstr "Hello")
    (by decide) rfl
  exact ⟨by decide, rfl, h.1, h.2⟩

theorem pick_min_go_mem (u : String) (s : ℚ) (l : List (String × ℚ)) :
    pick_min_go u s l = u ∨ ∃ q, (pick_min_go u s l, q) ∈ l := by
  induction l generalizing u s with
  | nil => exact Or.inl rfl
  | cons p rest ih =>
      obtain ⟨u2, s2⟩ := p
      by_cases h : s2 < s
      · rw [pick_min_go, if_pos h]
        rcases ih u2 s2 with h2 | ⟨q, hq⟩
        · exact Or.inr ⟨s2, by rw [h2]; exact List.mem_cons_self _ _⟩
        · exact Or.inr ⟨q, List.mem_cons_of_mem _ hq⟩
      · rw [pick_min_go, if_neg h]
        rcases ih u s with h2 | ⟨q, hq⟩
        · exact Or.inl h2
        · exact Or.inr ⟨q, List.mem_cons_of_mem _ hq⟩

theorem pick_min_mem (l : List (String × ℚ)) (u : String) (h : pick_min l = some u) :
    ∃ q, (u, q) ∈ l := by
  match l with
  | [] => cases h
  | (u0, s0) :: rest =>
      rw [pick_min] at h
      injection h with h
      subst h
      rcases pick_min_go_mem u0 s0 rest with h2 | ⟨q, hq⟩
      · rw [h2]; exact ⟨s0, List.mem_cons_self _ _⟩
      · exact ⟨q, List.mem_cons_of_mem _ hq⟩

theorem pick_min_eq_none (l : List (String × ℚ)) : pick_min l = none ↔ l = [] := by
  cases l with
  | nil => simp [pick_min]
  | cons p rest => obtain ⟨u, s⟩ := p; simp [pick_min]

theorem scored_urls_mem {r : URLRotator} {now : ℚ} {u : String} {q : ℚ}
    (h : (u, q) ∈ scored_urls r now) :
    u ∈ r.urls ∧ consec_failures r.status u ≤ 5 := by
  rcases List.mem_filterMap.mp h with ⟨a, ha, hf⟩
  simp only [score_entry] at hf
  split at hf
  · cases hf
  next h5 =>
      split at hf
      · injection hf with hf
        have hau : a = u := congrArg Prod.fst hf
        subst hau
        exact ⟨ha, Nat.le_of_not_lt h5⟩
      · cases hf

theorem bump_urls (r : URLRotator) (u : String) (now : ℚ) :
    (bump r u now).urls = r.urls := rfl

theorem bump_status (r : URLRotator) (u : String) (now : ℚ) :
    (bump r u now).status = r.status := rfl

theorem get_next_url_empty (r : URLRotator) (now : ℚ) (idx : Nat)
    (h : r.urls = []) : get_next_url r now idx = .error 503 := by
  have hsc : scored_urls r now = [] := by
    unfold scored_urls; rw [h]; rfl
  unfold get_next_url
  rw [hsc, h]
  rfl

theorem get_next_url_total (r : URLRotator) (now : ℚ) (idx : Nat) (h : r.urls ≠ []) :
    ∃ u r2, get_next_url r now idx = .ok (u, r2) ∧ u ∈ r.urls ∧
      r2.urls = r.urls ∧ r2.status = r.status := by
  unfold get_next_url
  cases hp : pick_min (scored_urls r now) with
  | some u0 =>
      obtain ⟨q, hq⟩ := pick_min_mem _ _ hp
      exact ⟨u0, _, rfl, (scored_urls_mem hq).1, rfl, rfl⟩
  | none =>
      cases hl : r.urls with
      | nil => exact absurd hl h
      | cons u0 rest =>
          refine ⟨_, _, rfl, ?_, ?_, rfl⟩
          · exact List.get_mem _ _ _
          · rw [bump_urls, hl]

theorem get_next_url_spec_ok {r : URLRotator} {now : ℚ} {idx : Nat} {u : String}
    {r2 : URLRotator} (h : get_next_url r now idx = .ok (u, r2)) :
    r2.urls = r.urls ∧ r2.status = r.status ∧
    (pick_min (scored_urls r now) = some u ∨
      (scored_urls r now = [] ∧ u ∈ r.urls)) := by
  unfold get_next_url at h
  cases hp : pick_min (scored_urls r now) <;> rw [hp] at h
  case some u0 =>
      dsimp only at h
      injection h with h
      injection h with h1 h2
      subst h1; subst h2
      exact ⟨rfl, rfl, Or.inl rfl⟩
  case none =>
      cases hl : r.urls <;> rw [hl] at h <;> dsimp only at h
      · cases h
      · injection h with h
        injection h with h1 h2
        subst h1; subst h2
        refine ⟨by rw [bump_urls, hl], rfl,
          Or.inr ⟨(pick_min_eq_none _).mp hp, List.get_mem _ _ _⟩⟩

/-- C1: `get_next_url` fails only on an empty pool (with 503); whenever the
candidate list built by the scoring loop is non-empty, the returned URL is a
candidate and therefore has at most 5 consecutive failures; when every URL
was filtered out, the fallback returns a member of the full pool chosen by
the `random.choice` oracle. -/
theorem get_next_url_filter_claim (r : URLRotator) (now : ℚ) (idx : Nat) :
    ((∃ e, get_next_url r now idx = .error e) ↔ r.urls = []) ∧
    (∀ e, get_next_url r now idx = .error e → e = 503) ∧
    (∀ u r2, get_next_url r now idx = .ok (u, r2) →
      (scored_urls r now ≠ [] →
        consec_failures r.status u ≤ 5 ∧ ∃ q, (u, q) ∈ scored_urls r now) ∧
      (scored_urls r now = [] → u ∈ r.urls)) := by
  refine ⟨⟨?_, ?_⟩, ?_, ?_⟩
  · rintro ⟨e, he⟩
    by_contra h
    obtain ⟨u, r2, hok, -, -, -⟩ := get_next_url_total r now idx h
    rw [hok] at he; cases he
  · intro h
    exact ⟨503, get_next_url_empty r now idx h⟩
  · intro e he
    by_cases h : r.urls = []
    · have h2 := get_next_url_empty r now idx h
      rw [h2] at he
      injection he with he
      exact he.symm
    · obtain ⟨u, r2, hok, -, -, -⟩ := get_next_url_total r now idx h
      rw [hok] at he; cases he
  · intro u r2 hok
    obtain ⟨-, -, hcase⟩ := get_next_url_spec_ok hok
    rcases hcase with hpick | ⟨hemp, hmem⟩
    · obtain ⟨q, hq⟩ := pick_min_mem _ _ hpick
      refine ⟨fun _ => ⟨(scored_urls_mem hq).2, q, hq⟩, fun hemp => ?_⟩
      rw [hemp] at hq; cases hq
    · exact ⟨fun hne => absurd hemp hne, fun _ => hmem⟩

theorem get_next_url_filter_claim_w :
    get_next_url r1c 0 0 = .ok ("a", bump r1c "a" 0) ∧
    scored_urls r1c 0 ≠ [] ∧ consec_failures r1c.status "a" ≤ 5 := by
  have h := ((get_next_url_filter_claim r1c 0 0).2.2 "a" (bump r1c "a" 0)
    rfl).1 (by decide)
  exact ⟨rfl, by decide, h.1⟩

theorem c7_counterexample :
    clean_urls ["b ", "b"] = ["b", "b"] ∧
    (update_urls r1c ["b ", "b"]).urls = ["b", "b"] ∧
    ¬ (update_urls r1c ["b ", "b"]).urls.Nodup := by
  refine ⟨by decide, by decide, by decide⟩

/-- C7 (amended): `update_urls` trims entries and drops the ones that are
empty after trimming, but does not deduplicate — duplicates survive into the
active pool.  An empty cleaned list is a no-op; otherwise the cleaned list
becomes the active pool and for every URL of the new pool, `request_count`,
`last_used` and `weight` are carried over when the URL had an entry before
and default-initialized (0, 0, 1.0) when it did not; entries of removed URLs
are dropped. -/
theorem update_urls_spec (r : URLRotator) (new_urls : List String) :
    (clean_urls new_urls = [] → update_urls r new_urls = r) ∧
    (clean_urls new_urls ≠ [] →
      (update_urls r new_urls).urls = clean_urls new_urls ∧
      (∀ u, u ∈ clean_urls new_urls →
        alookup (update_urls r new_urls).request_counts u =
          some ((alookup r.request_counts u).getD 0) ∧
        alookup (update_urls r new_urls).last_used u =
          some ((alookup r.last_used u).getD 0) ∧
        alookup (update_urls r new_urls).url_weights u =
          some ((alookup r.url_weights u).getD 1)) ∧
      (update_urls r new_urls).request_counts =
        (clean_urls new_urls).map (fun u => (u, (alookup r.request_counts u).getD 0))) := by
  constructor
  · intro h
    simp only [update_urls]
    rw [if_pos h]
  · intro h
    simp only [update_urls]
    rw [if_neg h]
    exact ⟨rfl, fun u hu =>
      ⟨alookup_map_self _ _ _ hu, alookup_map_self _ _ _ hu,
        alookup_map_self _ _ _ hu⟩, rfl⟩

theorem update_urls_spec_w :
    clean_urls ["b ", "c"] ≠ [] ∧
    (update_urls r1c ["b ", "c"]).urls = clean_urls ["b ", "c"] ∧
    alookup (update_urls r1c ["b ", "c"]).request_counts "b" =
      some ((alookup r1c.request_counts "b").getD 0) := by
  have h := (update_urls_spec r1c ["b ", "c"]).2 (by decide)
  exact ⟨by decide, h.1, (h.2.1 "b" (by decide)).1⟩

theorem update_urls_urls_ne_nil (r : URLRotator) (new_urls : List String)
    (h : r.urls ≠ []) : (update_urls r new_urls).urls ≠ [] := by
  simp only [update_urls]
  split
  · exact h
  next hcl => exact hcl

theorem rotator_init_urls {urls : List String} {r : URLRotator}
    (h : rotator_init urls = .ok r) : r.urls = clean_urls urls ∧ clean_urls urls ≠ [] := by
  simp only [rotator_init] at h
  split at h
  · cases h
  next hcl =>
      injection h with h
      subst h
      exact ⟨rfl, hcl⟩

/-- C10: every reachable rotator state has a non-empty pool (the constructor
rejects an empty cleaned list and `update_urls` no-ops on one), so the
empty-pool 503 branch of `get_next_url` is unreachable and every call
returns a URL from the pool. -/
theorem rotator_pool_nonempty (r : URLRotator) (h : ReachableRotator r) :
    r.urls ≠ [] ∧
    ∀ now idx, ∃ u r2, get_next_url r now idx = .ok (u, r2) ∧ u ∈ r.urls := by
  have hne : r.urls ≠ [] := by
    induction h with
    | init urls r hi =>
        obtain ⟨h1, h2⟩ := rotator_init_urls hi
        rw [h1]; exact h2
    | update r new_urls _ ih => exact update_urls_urls_ne_nil r new_urls ih
    | step r r2 now idx u _ hstep ih =>
        rw [(get_next_url_spec_ok hstep).1]; exact ih
    | health r url status latency response_length now _ ih => exact ih
  refine ⟨hne, fun now idx => ?_⟩
  obtain ⟨u, r2, h1, h2, -, -⟩ := get_next_url_total r now idx hne
  exact ⟨u, r2, h1, h2⟩

theorem rotator_pool_nonempty_w :
    r1c.urls ≠ [] ∧
    ∃ u r2, get_next_url r1c 0 0 = .ok (u, r2) ∧ u ∈ r1c.urls := by
  have h := rotator_pool_nonempty r1c (ReachableRotator.init ["a"] r1c rfl)
  exact ⟨h.1, h.2 0 0⟩

theorem c8_counterexample :
    spec_rl_accepts rl2c (some "c") 0 = true ∧
    (RateLimiter.acquire rl2c (some "c") 0).1 = .clientLimited := by
  constructor
  · simp only [spec_rl_accepts, rl2c, client_window, purge, alookup, List.filter_nil,
      Option.getD, List.length_nil, decide_eq_true_eq, Bool.and_eq_true]
    norm_num [lt_min_iff]
  · rfl

/-- C8 (amended): admission first purges expired entries, checks the global
window, then the per-client window whose limit is
`min(MAX_REQUESTS_PER_MINUTE // 4, 30)` with Python floor division (so the
limit can be 0 and reject every keyed request); a request is accepted iff
fewer than the respective limit timestamps remain after purging in each
window, and on acceptance the current timestamp is appended to the global
window and, when a client key was provided, to that client's window. -/
theorem acquire_spec (s : RateLimiter) (client_ip : Option String) (now : ℚ) :
    ((RateLimiter.acquire s client_ip now).1 = .accepted ↔
      ((purge s.requests now s.time_window).length < s.max_requests ∧
        ∀ ip, client_ip = some ip →
          (purge (client_window s ip) now s.time_window).length <
            min (s.max_requests / 4) 30)) ∧
    ((RateLimiter.acquire s client_ip now).1 = .globalLimited ↔
      s.max_requests ≤ (purge s.requests now s.time_window).length) ∧
    ((RateLimiter.acquire s client_ip now).1 = .accepted →
      (RateLimiter.acquire s client_ip now).2.requests =
        purge s.requests now s.time_window ++ [now] ∧
      ∀ ip, client_ip = some ip →
        alookup (RateLimiter.acquire s client_ip now).2.client_requests ip =
          some (purge (client_window s ip) now s.time_window ++ [now])) := by
  by_cases hg : s.max_requests ≤ (purge s.requests now s.time_window).length
  · have hdec : RateLimiter.acquire s client_ip now =
        (.globalLimited, { s with requests := purge s.requests now s.time_window }) := by
      simp only [RateLimiter.acquire]
      rw [if_pos hg]
    rw [hdec]
    exact ⟨iff_of_false (by intro hcon; cases hcon)
        (fun hcon => absurd hg (Nat.not_le.mpr hcon.1)),
      iff_of_true rfl hg,
      fun hcon => by cases hcon⟩
  · cases client_ip with
    | none =>
        have hdec : RateLimiter.acquire s none now =
            (.accepted, { s with requests := purge s.requests now s.time_window ++ [now] }) := by
          simp only [RateLimiter.acquire]
          rw [if_neg hg]
        rw [hdec]
        exact ⟨iff_of_true rfl ⟨Nat.not_le.mp hg, fun ip hip => by cases hip⟩,
          iff_of_false (by intro hcon; cases hcon) (fun hcon => hg hcon),
          fun _ => ⟨rfl, fun ip hip => by cases hip⟩⟩
    | some ip =>
        by_cases hc : min (s.max_requests / 4) 30 ≤
            (purge (client_window s ip) now s.time_window).length
        · have hdec : RateLimiter.acquire s (some ip) now =
              (.clientLimited,
                { s with
                  requests := purge s.requests now s.time_window
                  client_requests := ainsert s.client_requests ip
                    (purge (client_window s ip) now s.time_window) }) := by
            simp only [RateLimiter.acquire]
            rw [if_neg hg, if_pos hc]
          rw [hdec]
          exact ⟨iff_of_false (by intro hcon; cases hcon)
              (fun hcon => absurd (hcon.2 ip rfl) (Nat.not_lt.mpr hc)),
            iff_of_false (by intro hcon; cases hcon) (fun hcon => hg hcon),
            fun hcon => by cases hcon⟩
        · have hdec : RateLimiter.acquire s (some ip) now =
              (.accepted,
                { s with
                  requests := purge s.requests now s.time_window ++ [now]
                  client_requests := ainsert s.client_requests ip
                    (purge (client_window s ip) now s.time_window ++ [now]) }) := by
            simp only [RateLimiter.acquire]
            rw [if_neg hg, if_neg hc]
          rw [hdec]
          refine ⟨iff_of_true rfl ⟨Nat.not_le.mp hg, fun ip2 hip => ?_⟩,
            iff_of_false (by intro hcon; cases hcon) (fun hcon => hg hcon),
            fun _ => ⟨rfl, fun ip2 hip => ?_⟩⟩
          · injection hip with hip
            subst hip
            exact Nat.not_le.mp hc
          · injection hip with hip
            subst hip
            exact alookup_ainsert_self _ _ _

theorem acquire_spec_w :
    (RateLimiter.acquire rl60c (some "c") 0).1 = .accepted ∧
    (RateLimiter.acquire rl60c (some "c") 0).2.requests = [0] ∧
    alookup (RateLimiter.acquire rl60c (some "c") 0).2.client_requests "c" = some [0] := by
  have h := acquire_spec rl60c (some "c") 0
  have hacc : (RateLimiter.acquire rl60c (some "c") 0).1 = .accepted := by
    apply h.1.mpr
    refine ⟨by decide, fun ip hip => ?_⟩
    injection hip with hip
    subst hip
    decide
  obtain ⟨h1, h2⟩ := h.2.2 hacc
  exact ⟨hacc, by simpa using h1, by simpa using h2 "c" rfl⟩

theorem dedup_loop_total (env : DispatchEnv) (tried : List String) :
    ∀ (k : Nat) (u : String) (r : URLRotator) (cc : Nat), r.urls ≠ [] →
    ∃ u2 r2 cc2, dedup_loop env tried k u r cc = .ok (u2, r2, cc2) ∧
      r2.urls = r.urls := by
  intro k
  induction k with
  | zero => intro u r cc _; exact ⟨u, r, cc, rfl, rfl⟩
  | succ k ih =>
      intro u r cc h
      unfold dedup_loop
      by_cases ht : u ∈ tried
      · rw [if_pos ht]
        obtain ⟨u2, r2, hok, -, hurls, -⟩ :=
          get_next_url_total r (env.selTime cc) (env.selRand cc) h
        rw [hok]
        obtain ⟨u3, r3, cc3, hd, hu3⟩ := ih u2 r2 (cc + 1) (by rw [hurls]; exact h)
        exact ⟨u3, r3, cc3, hd, by rw [hu3, hurls]⟩
      · rw [if_neg ht]
        exact ⟨u, r, cc, rfl, rfl⟩

theorem select_url_total (env : DispatchEnv) (r : URLRotator) (tried : List String)
    (cc : Nat) (h : r.urls ≠ []) :
    ∃ u r2 cc2, select_url env r tried cc = .ok (u, r2, cc2) ∧ r2.urls = r.urls := by
  unfold select_url
  obtain ⟨u, r2, hok, -, hurls, -⟩ :=
    get_next_url_total r (env.selTime cc) (env.selRand cc) h
  rw [hok]
  obtain ⟨u3, r3, cc3, hd, hu3⟩ :=
    dedup_loop_total env tried 3 u r2 (cc + 1) (by rw [hurls]; exact h)
  exact ⟨u3, r3, cc3, hd, by rw [hu3, hurls]⟩

theorem attempt_loop_all_fail (tgt : String) (env : DispatchEnv) (maxR : Nat) :
    ∀ (fuel i : Nat) (tried : List String) (lastError : Option String)
      (r : URLRotator) (cc : Nat), r.urls ≠ [] →
    (∀ j, ∃ m, classify_response (env.resp j) = .fail m) →
    ∃ m r2, classify_response (env.resp (i + fuel)) = .fail m ∧
      attempt_loop tgt env maxR (fuel + 1) i tried lastError r cc =
        (.error (503, "Translation failed after " ++ toString maxR ++
          " attempts. Last error: " ++ m), i + fuel + 1, r2) := by
  intro fuel
  induction fuel with
  | zero =>
      intro i tried lastError r cc hr hfail
      obtain ⟨u, r1, cc1, hsel, hurls⟩ := select_url_total env r tried cc hr
      obtain ⟨m, hm⟩ := hfail i
      refine ⟨m, { r1 with
          status := update_status r1.status u false none none (env.updTime i) },
        by simpa using hm, ?_⟩
      unfold attempt_loop
      rw [hsel, hm]
      rfl
  | succ fuel ih =>
      intro i tried lastError r cc hr hfail
      obtain ⟨u, r1, cc1, hsel, hurls⟩ := select_url_total env r tried cc hr
      obtain ⟨m, hm⟩ := hfail i
      have hr2 : ({ r1 with
          status := update_status r1.status u false none none (env.updTime i) } :
          URLRotator).urls ≠ [] := by
        show r1.urls ≠ []
        rw [hurls]; exact hr
      obtain ⟨m2, r3, hm2, hrec⟩ :=
        ih (i + 1) (u :: tried) (some m) _ cc1 hr2 hfail
      have harith : i + 1 + fuel = i + (fuel + 1) := by omega
      refine ⟨m2, r3, by rw [← harith]; exact hm2, ?_⟩
      show attempt_loop tgt env maxR (fuel + 1 + 1) i tried lastError r cc = _
      unfold attempt_loop
      rw [hsel, hm]
      dsimp only
      rw [hrec]
      have harith2 : i + 1 + fuel + 1 = i + (fuel + 1) + 1 := by omega
      rw [harith2]

/-- C2 (amended): when the source and target languages differ, the pool is
non-empty, and every dispatch attempt fails, `translate_single` performs
exactly `min(len(TRANSLATION_API_URLS), 5)` attempts — computed from the
startup URL list, not the current pool, with 3 substituted when that list is
empty — and fails with HTTP 503 whose detail contains the last recorded
error message. -/
theorem translate_single_exhaustion (text source_lang target_lang : String)
    (startup_urls : List String) (r : URLRotator) (env : DispatchEnv)
    (hlang : source_lang ≠ target_lang) (hurls : r.urls ≠ [])
    (hfail : ∀ j, ∃ m, classify_response (env.resp j) = .fail m) :
    ∃ m r2,
      classify_response (env.resp (dispatch_max_retries startup_urls - 1)) = .fail m ∧
      translate_single text source_lang target_lang startup_urls r env =
        (.error (503, "Translation failed after " ++
          toString (dispatch_max_retries startup_urls) ++
          " attempts. Last error: " ++ m), dispatch_max_retries startup_urls, r2) := by
  have hpos : 0 < dispatch_max_retries startup_urls := by
    unfold dispatch_max_retries
    split
    · omega
    next hlen => omega
  obtain ⟨m, r2, hm, hloop⟩ := attempt_loop_all_fail target_lang env
    (dispatch_max_retries startup_urls) (dispatch_max_retries startup_urls - 1)
    0 [] none r 0 hurls hfail
  have h1 : 0 + (dispatch_max_retries startup_urls - 1) =
      dispatch_max_retries startup_urls - 1 := by omega
  have h2 : dispatch_max_retries startup_urls - 1 + 1 =
      dispatch_max_retries startup_urls := by omega
  have h3 : 0 + (dispatch_max_retries startup_urls - 1) + 1 =
      dispatch_max_retries startup_urls := by omega
  rw [h1] at hm
  rw [h2, h3] at hloop
  refine ⟨m, r2, hm, ?_⟩
  unfold translate_single
  rw [if_neg hlang]
  exact hloop

theorem translate_single_exhaustion_w :
    ∃ m r2,
      classify_response (envFailC.resp (dispatch_max_retries ["a"] - 1)) = .fail m ∧
      translate_single "Hello" "EN" "ZH" ["a"] r1c envFailC =
        (.error (503, "Translation failed after " ++
          toString (dispatch_max_retries ["a"]) ++
          " attempts. Last error: " ++ m), dispatch_max_retries ["a"], r2) :=
  translate_single_exhaustion "Hello" "EN" "ZH" ["a"] r1c envFailC
    (by decide) (by decide) (fun j => ⟨_, rfl⟩)

theorem c2_counterexample :
    rotator_init ["a", "b"] = .ok r2ab ∧
    rDc = update_urls r2ab ["d"] ∧
    rDc.urls = ["d"] ∧ min rDc.urls.length 5 = 1 ∧
    (translate_single "Hello" "EN" "ZH" ["a", "b"] rDc envFailC).2.1 = 2 ∧
    (translate_single "Hello" "EN" "ZH" ["a", "b"] rDc envFailC).1 =
      .error (503,
        "Translation failed after 2 attempts. Last error: HTTP 500: boom") := by
  refine ⟨rfl, rfl, rfl, rfl, rfl, rfl⟩

/-- C9: the frame sequence emitted by the streaming generator always ends
with the sentinel (`data: [DONE]` plus two newlines), on the success path and
on both error paths; errors are emitted as `{error:{message, type, code}}`
frames immediately before the sentinel. -/
theorem sse_translate_sentinel (o : TranslateOutcome) :
    (sse_translate o).getLast? = some .done ∧
    (∀ code detail, sse_translate (.httpError code detail) =
      [.errFrame detail "translation_error" code, .done]) ∧
    (∀ msg, sse_translate (.unexpected msg) =
      [.errFrame "Internal server error during translation" "internal_error" 500,
        .done]) := by
  refine ⟨?_, fun _ _ => rfl, fun _ => rfl⟩
  cases o with
  | ok t =>
      show ((((chunk100 t).map (fun c => SSEFrame.chunk (String.mk c))) ++
        [SSEFrame.finish, SSEFrame.done]).getLast? = some SSEFrame.done)
      rw [show (((chunk100 t).map (fun c => SSEFrame.chunk (String.mk c))) ++
        [SSEFrame.finish, SSEFrame.done]) =
        ((((chunk100 t).map (fun c => SSEFrame.chunk (String.mk c))) ++
          [SSEFrame.finish]) ++ [SSEFrame.done]) by simp]
      exact List.getLast?_concat _
  | httpError code detail => rfl
  | unexpected msg => rfl

end DeepLX
